import Mathlib

/-!
# Verification of `bin/00resize.py`

A shallow embedding of the parallel image-resize script: POSIX path
operations (`os.path.join`, `os.path.normpath`, `os.path.abspath`), the
target-path mapping, the external-command construction, the per-job worker
`_worker`, and the `__main__` pool run.  The filesystem is modelled as the
list of paths that exist; `subprocess.call` is modelled as returning the
exit status chosen by an oracle.  Theorems below settle the spec's claims
about this code.
-/

/-- The character substitution of `src.replace('/','_')`: `'/'` becomes
`'_'`, every other character is unchanged. -/
def substSlash (c : Char) : Char := if c = '/' then '_' else c

/-- Model of Python `src.replace('/','_')` (single-character pattern and
replacement, hence a character map). -/
def pyReplaceSlash (s : String) : String := ⟨s.data.map substSlash⟩

/-- Model of the Python slice `s[1:]`: drop the first character. -/
def pyDrop1 (s : String) : String := ⟨s.data.tail⟩

/-- `os.path.isabs`: the path starts with a separator. -/
def isAbs (s : String) : Bool := s.data.head? = some '/'

/-- Model of POSIX `os.path.join(a, b)` for two components: if `b` is
absolute it wins; otherwise `b` is appended to `a`, inserting a separator
unless `a` is empty or already ends with one. -/
def pyJoin (a b : String) : String :=
  if isAbs b then b
  else if a.data = [] ∨ a.data.getLast? = some '/' then a ++ b
  else a ++ "/" ++ b

/-- The number of leading slashes `posixpath.normpath` preserves: 2 when the
path starts with exactly two slashes, else 1 when it starts with a slash,
else 0. -/
def initSlashes (s : String) : Nat :=
  if s.data.take 3 = ['/', '/', '/'] then 1
  else if s.data.take 2 = ['/', '/'] then 2
  else if s.data.head? = some '/' then 1
  else 0

/-- The component loop of `posixpath.normpath`: drop empty and `.`
components, let `..` cancel a previous real component unless the path is
relative and nothing precedes it (or only `..`s precede it).  `acc` holds
the accepted components in reverse. -/
def normLoop (abs0 : Bool) (acc : List (List Char)) : List (List Char) → List (List Char)
  | [] => acc.reverse
  | comp :: rest =>
    if comp = [] ∨ comp = ['.'] then normLoop abs0 acc rest
    else if comp ≠ ['.', '.'] ∨ (abs0 = false ∧ acc = []) ∨ acc.head? = some ['.', '.'] then
      normLoop abs0 (comp :: acc) rest
    else if acc ≠ [] then normLoop abs0 acc.tail rest
    else normLoop abs0 acc rest

/-- Model of `posixpath.normpath`. -/
def normpath (p : String) : String :=
  if p = "" then "."
  else
    let isl := initSlashes p
    let comps := normLoop (isl ≠ 0) [] (p.data.splitOn '/')
    let path := List.replicate isl '/' ++ (List.intercalate ['/'] comps)
    if path = [] then "." else ⟨path⟩

/-- Model of `os.path.abspath` with the process working directory `cwd`
explicit: join onto `cwd` (a no-op for absolute paths) and normalise. -/
def abspath (cwd p : String) : String := normpath (pyJoin cwd p)

/-- The target-path mapping of `_worker` (the spec's PathMapper):
`os.path.join(tgtdir, src.replace('/','_')[1:])` applied to the resolved
absolute source path. -/
def pathMapper (src tgtdir : String) : String :=
  pyJoin tgtdir (pyDrop1 (pyReplaceSlash src))

/-- The external command of `_worker`:
`"convert -limit thread 1 -sample {}% -auto-orient {} {}".format(fraction*100, src, tgt)`.
`render` stands for Python's `str` on the float `fraction*100` (the exact
floating-point digit string is not modelled; the fraction is a rational). -/
def mkCmd (render : ℚ → String) (fraction : ℚ) (src tgt : String) : String :=
  "convert -limit thread 1 -sample " ++ render (fraction * 100) ++ "% -auto-orient "
    ++ src ++ " " ++ tgt

/-- What one `_worker` call does: the target path it checks, the lines it
prints, and the `subprocess.call` invocations it makes (command paired with
the exit status the call returned). -/
structure WorkerOut where
  target : String
  printed : List String
  calls : List (String × Int)
  deriving Repr, DecidableEq

/-- Modelled from the spec: `subprocess.call(cmd, shell=True)` hands the
command string to the shell and returns the shell's exit status; with
`shell=True` a missing binary or a non-zero exit yields a non-zero status,
never a Python exception.  `exitOf` is the oracle giving each command's
status. -/
def subprocessCall (exitOf : String → Int) (cmd : String) : Except String Int :=
  Except.ok (exitOf cmd)

/-- Shallow embedding of `_worker`.  `fs` is the set of paths that exist
(`os.path.exists`), `cwd` the working directory for `os.path.abspath`,
`tup` the enumerated `(idx, _src)` pair.  Fallible operations live in
`Except`; the only one is `subprocessCall`. -/
def _worker (exitOf : String → Int) (render : ℚ → String) (cwd : String)
    (tup : Nat × String) (fraction : ℚ) (tgtdir : String) (nfiles : Nat)
    (verbose : Nat) (fs : List String) : Except String WorkerOut :=
  let idx := tup.1
  let src := abspath cwd tup.2
  let tgt := pathMapper src tgtdir
  let cmd := mkCmd render fraction src tgt
  let printed :=
    (if 1 ≤ verbose then [toString (idx + 1) ++ " of " ++ toString nfiles] else [])
      ++ (if 2 ≤ verbose then [cmd] else [])
  if fs.contains tgt then Except.ok ⟨tgt, printed, []⟩
  else
    match subprocessCall exitOf cmd with
    | Except.ok r => Except.ok ⟨tgt, printed, [(cmd, r)]⟩
    | Except.error e => Except.error e

/-- Total projection of `_worker` (it never errors; see the failure-semantics
theorem). -/
def workerOut (exitOf : String → Int) (render : ℚ → String) (cwd : String)
    (tup : Nat × String) (fraction : ℚ) (tgtdir : String) (nfiles : Nat)
    (verbose : Nat) (fs : List String) : WorkerOut :=
  match _worker exitOf render cwd tup fraction tgtdir nfiles verbose fs with
  | Except.ok o => o
  | Except.error _ => ⟨"", [], []⟩

/-- The parsed command-line arguments (after `argparse` succeeds): the
positional float `fraction`, the positional `files`, `--tgtdir`, `--ncore`,
`--verbose`.  `argparse` itself performs no range check on `fraction`. -/
structure Args where
  fraction : ℚ
  files : List String
  tgtdir : String
  ncore : Nat
  verbose : Nat

/-- The `__main__` pool run: `pool.map(worker, enumerate(args.files))` —
every enumerated file is handed to `_worker` with the closed-over
configuration; all workers see the filesystem as it was at the start of the
run. -/
def mainRunE (exitOf : String → Int) (render : ℚ → String) (cwd : String)
    (args : Args) (fs : List String) : Except String (List WorkerOut) :=
  args.files.enum.mapM fun t =>
    _worker exitOf render cwd t args.fraction args.tgtdir args.files.length args.verbose fs

/-- The process exit status: 0 unless an exception escapes `__main__`. -/
def processExit (exitOf : String → Int) (render : ℚ → String) (cwd : String)
    (args : Args) (fs : List String) : Nat :=
  match mainRunE exitOf render cwd args fs with
  | Except.ok _ => 0
  | Except.error _ => 1

/-- Total form of the pool run. -/
def mainRun (exitOf : String → Int) (render : ℚ → String) (cwd : String)
    (args : Args) (fs : List String) : List WorkerOut :=
  args.files.enum.map fun t =>
    workerOut exitOf render cwd t args.fraction args.tgtdir args.files.length args.verbose fs

/-- Modelled from the spec: a dispatched `convert` invocation writes its
target file.  `runPoolFS` runs the pool once and returns the outputs
together with the filesystem afterwards: the starting filesystem plus the
target of every job that was dispatched. -/
def runPoolFS (exitOf : String → Int) (render : ℚ → String) (cwd : String)
    (args : Args) (fs : List String) : List WorkerOut × List String :=
  let outs := mainRun exitOf render cwd args fs
  (outs, fs ++ outs.filterMap fun o => if o.calls = [] then none else some o.target)

/-- Total number of external invocations a pool run makes. -/
def runInvocations (outs : List WorkerOut) : Nat :=
  (outs.map fun o => o.calls.length).sum

/-- POSIX-shell field splitting of an unquoted command string: split on
spaces, discarding empty fields.  `cur` accumulates the current word. -/
def splitWords (cur : List Char) : List Char → List (List Char)
  | [] => if cur = [] then [] else [cur]
  | c :: rest =>
    if c = ' ' then
      if cur = [] then splitWords [] rest else cur :: splitWords [] rest
    else splitWords (cur ++ [c]) rest

/-- The argument words the shell passes to the external tool for an
unquoted command string. -/
def shellWords (s : String) : List String :=
  (splitWords [] s.data).map fun l => ⟨l⟩

/-- PathMapper as the spec words it: replace every path separator in the
absolute source path with an underscore, strip the resulting leading
underscore, then join the result onto the target directory. -/
def pathMapperSpec (src tgtdir : String) : String :=
  let flat := pyReplaceSlash src
  let stripped := if flat.data.head? = some '_' then (⟨flat.data.tail⟩ : String) else flat
  pyJoin tgtdir stripped

/-! ## Helper lemmas -/

/-- Closed form of one worker call: the target it checks, the lines it
prints, and the dispatch decision. -/
theorem workerOut_eq (exitOf : String → Int) (render : ℚ → String) (cwd : String)
    (tup : Nat × String) (fraction : ℚ) (tgtdir : String) (nfiles : Nat)
    (verbose : Nat) (fs : List String) :
    workerOut exitOf render cwd tup fraction tgtdir nfiles verbose fs =
      ⟨pathMapper (abspath cwd tup.2) tgtdir,
       (if 1 ≤ verbose then [toString (tup.1 + 1) ++ " of " ++ toString nfiles] else [])
         ++ (if 2 ≤ verbose then
              [mkCmd render fraction (abspath cwd tup.2)
                (pathMapper (abspath cwd tup.2) tgtdir)] else []),
       if fs.contains (pathMapper (abspath cwd tup.2) tgtdir) then []
       else [(mkCmd render fraction (abspath cwd tup.2)
                (pathMapper (abspath cwd tup.2) tgtdir),
              exitOf (mkCmd render fraction (abspath cwd tup.2)
                (pathMapper (abspath cwd tup.2) tgtdir)))]⟩ := by
  by_cases h : pathMapper (abspath cwd tup.2) tgtdir ∈ fs <;>
    simp [workerOut, _worker, subprocessCall, h]

/-- A worker call never raises: `_worker` always returns `Except.ok`. -/
theorem worker_ok (exitOf : String → Int) (render : ℚ → String) (cwd : String)
    (tup : Nat × String) (fraction : ℚ) (tgtdir : String) (nfiles : Nat)
    (verbose : Nat) (fs : List String) :
    _worker exitOf render cwd tup fraction tgtdir nfiles verbose fs =
      Except.ok (workerOut exitOf render cwd tup fraction tgtdir nfiles verbose fs) := by
  by_cases h : pathMapper (abspath cwd tup.2) tgtdir ∈ fs <;>
    simp [workerOut, _worker, subprocessCall, h]

/-- `mapM` of a function that always succeeds is `ok` of the `map`. -/
theorem mapM_ok_of_ok {α β : Type} (f : α → Except String β) (g : α → β) (l : List α)
    (h : ∀ a ∈ l, f a = Except.ok (g a)) : l.mapM f = Except.ok (l.map g) := by
  induction l with
  | nil => rfl
  | cons a l ih =>
    rw [List.mapM_cons, h a (List.mem_cons_self a l),
      ih (fun b hb => h b (List.mem_cons_of_mem a hb))]
    rfl

/-- `substSlash` never produces a separator. -/
theorem substSlash_ne_slash (c : Char) : substSlash c ≠ '/' := by
  unfold substSlash
  by_cases h : c = '/' <;> simp [h]

/-- `substSlash` is injective on characters other than the substitute. -/
theorem substSlash_inj {c₁ c₂ : Char} (h₁ : c₁ ≠ '_') (h₂ : c₂ ≠ '_')
    (h : substSlash c₁ = substSlash c₂) : c₁ = c₂ := by
  unfold substSlash at h
  by_cases e₁ : c₁ = '/' <;> by_cases e₂ : c₂ = '/'
  · rw [e₁, e₂]
  · rw [if_pos e₁, if_neg e₂] at h
    exact absurd h.symm h₂
  · rw [if_neg e₁, if_pos e₂] at h
    exact absurd h h₁
  · rw [if_neg e₁, if_neg e₂] at h
    exact h

/-- Mapping `substSlash` is injective on strings without the substitute
character. -/
theorem map_substSlash_inj : ∀ l₁ l₂ : List Char, '_' ∉ l₁ → '_' ∉ l₂ →
    l₁.map substSlash = l₂.map substSlash → l₁ = l₂ := by
  intro l₁
  induction l₁ with
  | nil => intro l₂ _ _ h; cases l₂ <;> simp_all
  | cons c l ih =>
    intro l₂ h₁ h₂ h
    cases l₂ with
    | nil => simp at h
    | cons d l' =>
      simp only [List.map_cons, List.cons.injEq] at h
      simp only [List.mem_cons, not_or] at h₁ h₂
      have hc := substSlash_inj (fun e => h₁.1 e.symm) (fun e => h₂.1 e.symm) h.1
      rw [hc, ih l' h₁.2 h₂.2 h.2]

/-- When `b` is not absolute, `pyJoin a b` is a prefix depending only on `a`
followed by `b`. -/
theorem pyJoin_data_of_not_abs (a b : String) (h : isAbs b = false) :
    (pyJoin a b).data =
      (if a.data = [] ∨ a.data.getLast? = some '/' then a.data else a.data ++ ['/'])
        ++ b.data := by
  unfold pyJoin
  rw [if_neg (by simp [h])]
  by_cases hc : a.data = [] ∨ a.data.getLast? = some '/' <;> simp [hc]

/-- Joining an absolute path ignores the first component. -/
theorem pyJoin_of_abs (a b : String) (h : isAbs b = true) : pyJoin a b = b := by
  unfold pyJoin
  rw [if_pos h]

/-- A string none of whose characters is a separator is not absolute. -/
theorem not_isAbs_of_no_slash (s : String) (h : ∀ c ∈ s.data, c ≠ '/') :
    isAbs s = false := by
  unfold isAbs
  cases hs : s.data with
  | nil => rfl
  | cons c l =>
    have := h c (by rw [hs]; exact List.mem_cons_self c l)
    simp [this]

/-! ## Claim theorems -/

/-- C2: the external transcoding command is invoked exactly when the job's
resolved target path does not already exist at the time of the check — the
worker's invocation list is empty iff the target exists, and holds exactly
the constructed command iff it does not. -/
theorem claim_C2_dispatch_iff_target_missing (exitOf : String → Int)
    (render : ℚ → String) (cwd : String) (tup : Nat × String) (fraction : ℚ)
    (tgtdir : String) (nfiles verbose : Nat) (fs : List String) :
    ((workerOut exitOf render cwd tup fraction tgtdir nfiles verbose fs).calls = []
        ↔ pathMapper (abspath cwd tup.2) tgtdir ∈ fs)
      ∧ ((workerOut exitOf render cwd tup fraction tgtdir nfiles verbose fs).calls.map
            Prod.fst
            = [mkCmd render fraction (abspath cwd tup.2)
                (pathMapper (abspath cwd tup.2) tgtdir)]
          ↔ pathMapper (abspath cwd tup.2) tgtdir ∉ fs) := by
  rw [workerOut_eq]
  by_cases h : pathMapper (abspath cwd tup.2) tgtdir ∈ fs <;> simp [h]

/-- C3: on absolute source paths the code's target mapping coincides with
the spec's algorithm (replace every separator with an underscore, strip the
resulting leading underscore, join onto the target directory), and
`pathMapper "/a/b/c.png" "/out"` is `"/out/a_b_c.png"`. -/
theorem claim_C3_pathMapper_matches_spec (src tgtdir : String) (h : isAbs src = true) :
    pathMapper src tgtdir = pathMapperSpec src tgtdir
      ∧ pathMapper "/a/b/c.png" "/out" = "/out/a_b_c.png" := by
  refine ⟨?_, by rfl⟩
  have hl : ∃ l, src.data = '/' :: l := by
    unfold isAbs at h
    cases hs : src.data with
    | nil => rw [hs] at h; simp at h
    | cons c l =>
      rw [hs] at h
      simp only [List.head?_cons, Option.some.injEq, decide_eq_true_eq] at h
      exact ⟨l, by rw [h]⟩
  obtain ⟨l, hl⟩ := hl
  unfold pathMapper pathMapperSpec pyReplaceSlash pyDrop1
  rw [hl]
  simp [substSlash]

/-- Witness for C3 at the spec's round-trip example. -/
theorem claim_C3_witness :
    pathMapper "/a/b/c.png" "/out" = pathMapperSpec "/a/b/c.png" "/out"
      ∧ pathMapper "/a/b/c.png" "/out" = "/out/a_b_c.png" :=
  claim_C3_pathMapper_matches_spec "/a/b/c.png" "/out" (by rfl)

/-- C5 as stated is false at a concrete input: with verbosity 1 and the
target pre-existing, the job is skipped (no invocation is made) yet the
progress line is still printed. -/
theorem claim_C5_counterexample :
    (workerOut (fun _ => 0) (fun _ => "50.0") "/" (0, "/x/1.png") (1/2) "/out" 1 1
        ["/out/x_1.png"]).calls = []
      ∧ (workerOut (fun _ => 0) (fun _ => "50.0") "/" (0, "/x/1.png") (1/2) "/out" 1 1
          ["/out/x_1.png"]).printed = ["1 of 1"] := by
  refine ⟨by rfl, by rfl⟩

/-- C5 amended: at verbosity ≥ 1 the progress line `"{idx+1} of {nfiles}"`
(the job's original 0-based index plus one, and the total input count) is
printed for every job — it is emitted before the existence check, hence also
for jobs that are subsequently skipped. -/
theorem claim_C5_progress_before_skip_check (exitOf : String → Int)
    (render : ℚ → String) (cwd : String) (tup : Nat × String) (fraction : ℚ)
    (tgtdir : String) (nfiles verbose : Nat) (fs : List String) (h : 1 ≤ verbose) :
    (workerOut exitOf render cwd tup fraction tgtdir nfiles verbose fs).printed.head?
      = some (toString (tup.1 + 1) ++ " of " ++ toString nfiles) := by
  rw [workerOut_eq]
  simp [h]

/-- Witness for the amended C5 at a concrete skipped job. -/
theorem claim_C5_progress_witness :
    (workerOut (fun _ => 0) (fun _ => "50.0") "/" (0, "/x/1.png") (1/2) "/out" 2 1
        ["/out/x_1.png"]).printed.head? = some "1 of 2" := by
  have h := claim_C5_progress_before_skip_check (fun _ => 0) (fun _ => "50.0") "/"
    (0, "/x/1.png") (1/2) "/out" 2 1 ["/out/x_1.png"] (by decide)
  simpa using h

/-- C9: for an absolute source path the resolved target path is a pure
function of the source path and the target directory alone: it is unchanged
under any variation of working directory, filesystem, fraction, verbosity,
enumeration index, total count, float rendering and exit-status oracle, and
equals `pathMapper (normpath src) tgtdir`. -/
theorem claim_C9_target_pure_function (exitOf₁ exitOf₂ : String → Int)
    (render₁ render₂ : ℚ → String) (cwd₁ cwd₂ : String) (idx₁ idx₂ : Nat)
    (src : String) (fraction₁ fraction₂ : ℚ) (tgtdir : String)
    (nfiles₁ nfiles₂ verbose₁ verbose₂ : Nat) (fs₁ fs₂ : List String)
    (h : isAbs src = true) :
    (workerOut exitOf₁ render₁ cwd₁ (idx₁, src) fraction₁ tgtdir nfiles₁ verbose₁
        fs₁).target
      = (workerOut exitOf₂ render₂ cwd₂ (idx₂, src) fraction₂ tgtdir nfiles₂ verbose₂
          fs₂).target
      ∧ (workerOut exitOf₁ render₁ cwd₁ (idx₁, src) fraction₁ tgtdir nfiles₁ verbose₁
          fs₁).target = pathMapper (normpath src) tgtdir := by
  rw [workerOut_eq, workerOut_eq]
  unfold abspath
  rw [pyJoin_of_abs cwd₁ src h, pyJoin_of_abs cwd₂ src h]
  exact ⟨rfl, rfl⟩

/-- Witness for C9 at a concrete source path under two different process
states. -/
theorem claim_C9_witness :
    (workerOut (fun _ => 0) (fun _ => "50.0") "/a" (0, "/x/1.png") (1/2) "/out" 1 0
        []).target
      = (workerOut (fun _ => 1) (fun _ => "99") "/b" (5, "/x/1.png") (3/4) "/out" 7 2
          ["/q"]).target
      ∧ (workerOut (fun _ => 0) (fun _ => "50.0") "/a" (0, "/x/1.png") (1/2) "/out" 1 0
          []).target = pathMapper (normpath "/x/1.png") "/out" :=
  claim_C9_target_pure_function (fun _ => 0) (fun _ => 1) (fun _ => "50.0")
    (fun _ => "99") "/a" "/b" 0 5 "/x/1.png" (1/2) (3/4) "/out" 1 7 0 2 [] ["/q"]
    (by rfl)

/-- An absolute path's characters start with the separator. -/
theorem isAbs_exists_cons {s : String} (h : isAbs s = true) : ∃ l, s.data = '/' :: l := by
  unfold isAbs at h
  cases hs : s.data with
  | nil => rw [hs] at h; simp at h
  | cons c l =>
    rw [hs] at h
    simp only [List.head?_cons, Option.some.injEq, decide_eq_true_eq] at h
    exact ⟨l, by rw [h]⟩

/-- C4: two distinct absolute source paths, neither containing the
underscore substitute character, map to two distinct target paths under any
fixed target directory. -/
theorem claim_C4_pathMapper_collision_free (p₁ p₂ d : String)
    (a₁ : isAbs p₁ = true) (a₂ : isAbs p₂ = true)
    (n₁ : '_' ∉ p₁.data) (n₂ : '_' ∉ p₂.data) (hne : p₁ ≠ p₂) :
    pathMapper p₁ d ≠ pathMapper p₂ d := by
  obtain ⟨r₁, hr₁⟩ := isAbs_exists_cons a₁
  obtain ⟨r₂, hr₂⟩ := isAbs_exists_cons a₂
  intro heq
  apply hne
  unfold pathMapper pyDrop1 pyReplaceSlash at heq
  rw [hr₁, hr₂] at heq
  simp only [List.map_cons, List.tail_cons] at heq
  have habs : ∀ r : List Char, isAbs ⟨List.map substSlash r⟩ = false := by
    intro r
    apply not_isAbs_of_no_slash
    intro c hc
    have hc' : c ∈ List.map substSlash r := hc
    obtain ⟨a, _, ha⟩ := List.mem_map.mp hc'
    rw [← ha]
    exact substSlash_ne_slash a
  have hdata := congrArg String.data heq
  rw [pyJoin_data_of_not_abs d _ (habs r₁), pyJoin_data_of_not_abs d _ (habs r₂)] at hdata
  have hmap : List.map substSlash r₁ = List.map substSlash r₂ :=
    List.append_cancel_left hdata
  have hr : r₁ = r₂ :=
    map_substSlash_inj r₁ r₂
      (fun hm => n₁ (by rw [hr₁]; exact List.mem_cons_of_mem _ hm))
      (fun hm => n₂ (by rw [hr₂]; exact List.mem_cons_of_mem _ hm)) hmap
  exact String.ext (by rw [hr₁, hr₂, hr])

/-- Witness for C4 on two concrete sibling paths. -/
theorem claim_C4_witness :
    pathMapper "/a/b.png" "/out" ≠ pathMapper "/a/c.png" "/out" :=
  claim_C4_pathMapper_collision_free "/a/b.png" "/a/c.png" "/out" (by rfl) (by rfl)
    (by decide) (by decide) (by decide)

/-- C1 as stated is false at a concrete input: with fraction 1.5 (and also
with fraction 0.0), both outside (0, 1], the run is not aborted and no
`InvalidFraction` error exists — the job is dispatched to the external
tool. -/
theorem claim_C1_counterexample :
    runInvocations (mainRun (fun _ => 0) (fun _ => "150.0") "/"
        ⟨3/2, ["/x/a.png"], "/out", 2, 0⟩ []) = 1
      ∧ runInvocations (mainRun (fun _ => 0) (fun _ => "0.0") "/"
          ⟨0, ["/x/a.png"], "/out", 2, 0⟩ []) = 1 := by
  refine ⟨by rfl, by rfl⟩

/-- C1 amended: no fraction validation is performed — every parsed fraction
value (0.0, 1.0 and 1.5 alike) is accepted, and the dispatch behaviour of
the run is independent of the fraction: only the existence check gates each
job. -/
theorem claim_C1_no_fraction_validation (exitOf : String → Int)
    (render : ℚ → String) (cwd : String) (files : List String) (tgtdir : String)
    (ncore verbose : Nat) (fs : List String) (q₁ q₂ : ℚ) :
    (mainRun exitOf render cwd ⟨q₁, files, tgtdir, ncore, verbose⟩ fs).map
        (fun o => o.calls.length)
      = (mainRun exitOf render cwd ⟨q₂, files, tgtdir, ncore, verbose⟩ fs).map
        (fun o => o.calls.length) := by
  unfold mainRun
  rw [List.map_map, List.map_map]
  apply List.map_congr_left
  intro t _
  simp only [Function.comp]
  rw [workerOut_eq, workerOut_eq]
  by_cases h : pathMapper (abspath cwd t.2) tgtdir ∈ fs <;> simp [h]

/-- C8: failed external invocations are not raised and not propagated — for
every exit-status oracle the pool run returns `ok`, the process exits 0, and
the observable outputs (target, printed lines, dispatched command strings)
do not depend on the exit statuses at all. -/
theorem claim_C8_failures_ignored (exitOf exitOf' : String → Int)
    (render : ℚ → String) (cwd : String) (args : Args) (fs : List String) :
    mainRunE exitOf render cwd args fs
        = Except.ok (mainRun exitOf render cwd args fs)
      ∧ processExit exitOf render cwd args fs = 0
      ∧ (mainRun exitOf render cwd args fs).map
          (fun o => (o.target, o.printed, o.calls.map Prod.fst))
        = (mainRun exitOf' render cwd args fs).map
          (fun o => (o.target, o.printed, o.calls.map Prod.fst)) := by
  have hok : mainRunE exitOf render cwd args fs
      = Except.ok (mainRun exitOf render cwd args fs) := by
    unfold mainRunE mainRun
    exact mapM_ok_of_ok _ _ _ (fun t _ =>
      worker_ok exitOf render cwd t args.fraction args.tgtdir args.files.length
        args.verbose fs)
  refine ⟨hok, ?_, ?_⟩
  · unfold processExit
    rw [hok]
  · unfold mainRun
    rw [List.map_map, List.map_map]
    apply List.map_congr_left
    intro t _
    simp only [Function.comp]
    rw [workerOut_eq, workerOut_eq]
    by_cases h : pathMapper (abspath cwd t.2) args.tgtdir ∈ fs <;> simp [h]

/-- First component of a pool run with filesystem effects: the worker
outputs. -/
theorem runPoolFS_fst (exitOf : String → Int) (render : ℚ → String) (cwd : String)
    (args : Args) (fs : List String) :
    (runPoolFS exitOf render cwd args fs).1 = mainRun exitOf render cwd args fs := rfl

/-- Second component of a pool run with filesystem effects: the filesystem
plus the dispatched targets. -/
theorem runPoolFS_snd (exitOf : String → Int) (render : ℚ → String) (cwd : String)
    (args : Args) (fs : List String) :
    (runPoolFS exitOf render cwd args fs).2
      = fs ++ (mainRun exitOf render cwd args fs).filterMap
          (fun o => if o.calls = [] then none else some o.target) := rfl

/-- After one run (in the model where each dispatched invocation creates its
target), every job's target exists. -/
theorem target_exists_after_run (exitOf : String → Int) (render : ℚ → String)
    (cwd : String) (args : Args) (fs : List String) :
    ∀ t ∈ args.files.enum,
      pathMapper (abspath cwd t.2) args.tgtdir ∈ (runPoolFS exitOf render cwd args fs).2 := by
  intro t ht
  rw [runPoolFS_snd]
  rw [List.mem_append]
  by_cases h : pathMapper (abspath cwd t.2) args.tgtdir ∈ fs
  · exact Or.inl h
  · right
    rw [List.mem_filterMap]
    refine ⟨workerOut exitOf render cwd t args.fraction args.tgtdir args.files.length
      args.verbose fs, ?_, ?_⟩
    · exact List.mem_map_of_mem _ ht
    · rw [workerOut_eq]
      simp [h]

/-- C7's "strictly fewer external invocations on the second run" is false at
a concrete configuration: when the only job's target already exists, the
first and the second run both perform zero invocations. -/
theorem claim_C7_counterexample :
    ¬ (runInvocations (runPoolFS (fun _ => 0) (fun _ => "50.0") "/"
          ⟨1/2, ["/x/1.png"], "/out", 2, 0⟩
          (runPoolFS (fun _ => 0) (fun _ => "50.0") "/"
            ⟨1/2, ["/x/1.png"], "/out", 2, 0⟩ ["/out/x_1.png"]).2).1
        < runInvocations (runPoolFS (fun _ => 0) (fun _ => "50.0") "/"
            ⟨1/2, ["/x/1.png"], "/out", 2, 0⟩ ["/out/x_1.png"]).1) := by
  decide

/-- C7 amended: in the model where every dispatched invocation creates its
target, a second pool run with identical arguments performs zero external
invocations — hence never more than the first run — and leaves the
filesystem, and with it the target-directory contents, unchanged. -/
theorem claim_C7_second_run_idle (exitOf : String → Int) (render : ℚ → String)
    (cwd : String) (args : Args) (fs : List String) :
    runInvocations (runPoolFS exitOf render cwd args
        (runPoolFS exitOf render cwd args fs).2).1 = 0
      ∧ (runPoolFS exitOf render cwd args (runPoolFS exitOf render cwd args fs).2).2
        = (runPoolFS exitOf render cwd args fs).2 := by
  have key := target_exists_after_run exitOf render cwd args fs
  have hcalls : ∀ t ∈ args.files.enum,
      (workerOut exitOf render cwd t args.fraction args.tgtdir args.files.length
        args.verbose (runPoolFS exitOf render cwd args fs).2).calls = [] := by
    intro t ht
    rw [workerOut_eq]
    simp [key t ht]
  constructor
  · rw [runPoolFS_fst]
    unfold runInvocations mainRun
    rw [List.map_map]
    apply List.sum_eq_zero
    intro x hx
    obtain ⟨t, ht, rfl⟩ := List.mem_map.mp hx
    simp only [Function.comp]
    rw [hcalls t ht]
    rfl
  · rw [runPoolFS_snd]
    have hnil : (mainRun exitOf render cwd args (runPoolFS exitOf render cwd args fs).2).filterMap
        (fun o => if o.calls = [] then none else some o.target) = [] := by
      rw [List.filterMap_eq_nil_iff]
      intro o ho
      unfold mainRun at ho
      obtain ⟨t, ht, rfl⟩ := List.mem_map.mp ho
      rw [hcalls t ht]
      rfl
    rw [hnil, List.append_nil]

/-- Unfolding equation for `splitWords` on a cons. -/
theorem splitWords_cons (cur : List Char) (c : Char) (rest : List Char) :
    splitWords cur (c :: rest)
      = if c = ' ' then
          (if cur = [] then splitWords [] rest else cur :: splitWords [] rest)
        else splitWords (cur ++ [c]) rest := rfl

/-- Unfolding equation for `splitWords` at the end of input. -/
theorem splitWords_last (cur : List Char) :
    splitWords cur [] = if cur = [] then [] else [cur] := rfl

/-- A space-free block extends the current word. -/
theorem splitWords_block (w : List Char) :
    ∀ cur rest, (∀ c ∈ w, c ≠ ' ') →
      splitWords cur (w ++ rest) = splitWords (cur ++ w) rest := by
  induction w with
  | nil => intro cur rest _; simp
  | cons c w ih =>
    intro cur rest hw
    rw [List.cons_append, splitWords_cons, if_neg (hw c (List.mem_cons_self c w)),
      ih (cur ++ [c]) rest (fun b hb => hw b (List.mem_cons_of_mem c hb)),
      List.append_assoc]
    rfl

/-- A nonempty space-free word followed by a space is emitted as one field. -/
theorem splitWords_word (w rest : List Char) (hw : ∀ c ∈ w, c ≠ ' ') (hne : w ≠ []) :
    splitWords [] (w ++ ' ' :: rest) = w :: splitWords [] rest := by
  rw [splitWords_block w [] (' ' :: rest) hw, List.nil_append, splitWords_cons,
    if_pos rfl, if_neg hne]

/-- A final nonempty space-free word is emitted as the last field. -/
theorem splitWords_final (w : List Char) (hw : ∀ c ∈ w, c ≠ ' ') (hne : w ≠ []) :
    splitWords [] w = [w] := by
  have h := splitWords_block w [] [] hw
  rw [List.append_nil, List.nil_append] at h
  rw [h, splitWords_last, if_neg hne]

/-- C6: for space-free paths and percent rendering, shell field splitting of
the constructed command yields exactly: the tool name, `-limit thread 1`
(single-threaded internal parallelism), `-sample` with the rendering of
`fraction * 100` followed by `%` (percentage subsampling rather than
interpolated resizing), `-auto-orient` (orientation metadata preserved), and
the resolved source and target paths as the final two arguments. -/
theorem claim_C6_command_structure (render : ℚ → String) (fraction : ℚ)
    (src tgt : String)
    (hsrc : ∀ c ∈ src.data, c ≠ ' ') (hsrc0 : src.data ≠ [])
    (htgt : ∀ c ∈ tgt.data, c ≠ ' ') (htgt0 : tgt.data ≠ [])
    (hpct : ∀ c ∈ (render (fraction * 100)).data, c ≠ ' ') :
    shellWords (mkCmd render fraction src tgt)
      = ["convert", "-limit", "thread", "1", "-sample",
         render (fraction * 100) ++ "%", "-auto-orient", src, tgt] := by
  have h1 : "convert -limit thread 1 -sample ".data
      = "convert".data ++ ' ' :: ("-limit".data ++ ' ' :: ("thread".data ++ ' ' ::
          ("1".data ++ ' ' :: ("-sample".data ++ [' '])))) := by rfl
  have h2 : "% -auto-orient ".data = '%' :: ' ' :: ("-auto-orient".data ++ [' ']) := by rfl
  have h3 : (" " : String).data = [' '] := by rfl
  unfold shellWords mkCmd
  rw [String.data_append, String.data_append, String.data_append, String.data_append,
    String.data_append, h1, h2, h3]
  simp only [List.append_assoc, List.cons_append, List.singleton_append, List.nil_append]
  simp [splitWords_cons]
  rw [splitWords_block (render (fraction * 100)).data [] _ hpct, List.nil_append]
  simp [splitWords_cons]
  refine ⟨rfl, ?_⟩
  rw [splitWords_word src.data _ hsrc hsrc0, splitWords_final tgt.data htgt htgt0]
  rfl

/-- Witness for C6 at a concrete command. -/
theorem claim_C6_witness :
    shellWords (mkCmd (fun _ => "50") (1/2) "/x/1.png" "/out/x_1.png")
      = ["convert", "-limit", "thread", "1", "-sample", "50" ++ "%", "-auto-orient",
         "/x/1.png", "/out/x_1.png"] :=
  claim_C6_command_structure (fun _ => "50") (1/2) "/x/1.png" "/out/x_1.png"
    (by decide) (by decide) (by decide) (by decide) (by decide)

/-- C10: the command is built by plain textual interpolation of the
unquoted, unescaped paths and handed to the shell — for the source path
`"/a b.png"` (which contains a space) the worker's dispatched command
interpolates the path verbatim, and shell field splitting does not deliver
that path as a single argument: it is broken across two fields. -/
theorem claim_C10_whitespace_path_splits :
    (workerOut (fun _ => 0) (fun _ => "50.0") "/" (0, "/a b.png") (1/2) "/out" 1 0
        []).calls.map Prod.fst
      = ["convert -limit thread 1 -sample 50.0% -auto-orient /a b.png /out/a b.png"]
      ∧ shellWords
          "convert -limit thread 1 -sample 50.0% -auto-orient /a b.png /out/a b.png"
        = ["convert", "-limit", "thread", "1", "-sample", "50.0%", "-auto-orient",
           "/a", "b.png", "/out/a", "b.png"]
      ∧ "/a b.png" ∉ shellWords
          "convert -limit thread 1 -sample 50.0% -auto-orient /a b.png /out/a b.png" := by
  refine ⟨by rfl, by rfl, by decide⟩
